import Mathlib

/-!
Verification of the meowshapes scene-construction core: the drawing
context (scene membership, immediate/retained lifecycle, garbage
collection, update scheduler), the render-loop clock, camera zoom, and
the input validation of the graph and height-field factories.

The embedding follows the TypeScript source (`src/ctx.ts`,
`src/renderer.ts`, the `Graph` and `HeightField` object classes).
Scene nodes are identified by natural numbers; the THREE.js scene is its
ordered children list (`Object3D.add` first detaches an object from its
current parent, so adding is modelled as filtering out the node and
appending it; `Object3D.remove` drops the single occurrence, which on a
duplicate-free children list equals filtering).  JavaScript numbers are
modelled as exact rationals; where non-finite values matter (graph
sampling) an explicit IEEE-style value type with `nan` and signed
infinities is used.
-/

/-- A scene node handle (the identity of a THREE.Object3D). -/
abbrev Node := ℕ

/-- The rendering mode of the context (`Ctx.mode` in ctx.ts). -/
inductive Mode
  | RETAINED
  | IMMEDIATE
  deriving DecidableEq

/-- The colour theme (`Theme` in colorUtils.ts). -/
inductive Theme
  | light
  | dark
  deriving DecidableEq

/-- A scene-mutating call an update callback can make on the context.
Every shape factory (`sphere`, `cone`, `line`, ...) ends in
`this.spawn(mesh)` on the freshly created node, so factory calls reduce
to `spawn` of that node. -/
inductive Op
  | spawn (x : Node)
  | remove (x : Node)
  deriving DecidableEq

/-- Whether an op is a spawn call. -/
def Op.isSpawn : Op → Bool
  | .spawn _ => true
  | .remove _ => false

/-- An update callback: given `(dt, elapsed)` it performs a sequence of
scene-mutating calls on the context.  This models the observable effect
on the scene of an arbitrary registered closure. -/
abbrev UpdateFn := ℚ → ℚ → List Op

/-- A triple of rational components, used for `camera.scale`. -/
structure Vec3Q where
  x : ℚ
  y : ℚ
  z : ℚ

/-- The drawing context state (`class Ctx` in ctx.ts).  `scene` is the
children list of the shared THREE.Scene. -/
structure Ctx where
  scene : List Node
  garbage : List Node
  mode : Mode
  updateFns : List UpdateFn
  theme : Theme
  sceneBackground : Theme
  camScale : Vec3Q
  camNear : ℚ
  camFar : ℚ
  orbitInit : Bool

/-- `THREE.Object3D.add` on the scene: the object is detached from its
previous parent (removing its occurrence if it was already a scene
child) and pushed onto the end of the children list. -/
def sceneAdd (s : List Node) (x : Node) : List Node :=
  s.filter (fun y => y != x) ++ [x]

/-- `THREE.Object3D.remove` on the scene: drops the object from the
children list (children are duplicate-free, so filtering equals
splicing out the single occurrence). -/
def sceneRemove (s : List Node) (x : Node) : List Node :=
  s.filter (fun y => y != x)

/-- `Ctx.spawn`: unconditionally add to the scene; in IMMEDIATE mode
additionally push onto `garbage`. -/
def Ctx.spawn (c : Ctx) (x : Node) : Ctx :=
  let c1 := { c with scene := sceneAdd c.scene x }
  if c1.mode = Mode.IMMEDIATE then { c1 with garbage := c1.garbage ++ [x] }
  else c1

/-- `Ctx.remove`: unconditionally remove from the scene. -/
def Ctx.remove (c : Ctx) (x : Node) : Ctx :=
  { c with scene := sceneRemove c.scene x }

/-- `Ctx.update`: append a callback to `updateFns` (Array.push). -/
def Ctx.update (c : Ctx) (f : UpdateFn) : Ctx :=
  { c with updateFns := c.updateFns ++ [f] }

/-- `Ctx.setTheme`: set the theme and repaint the scene background with
the new theme background colour. -/
def Ctx.setTheme (c : Ctx) (t : Theme) : Ctx :=
  { c with theme := t, sceneBackground := t }

/-- Setter half of `Ctx.zoom(value)`: `camera.scale.setScalar(1 / value)`. -/
def Ctx.zoomSet (c : Ctx) (v : ℚ) : Ctx :=
  { c with camScale := ⟨1 / v, 1 / v, 1 / v⟩ }

/-- `Math.min(scale.x, scale.y, scale.z)` as read by `zoom`, `graph`
and `arrow`. -/
def Ctx.minScale (c : Ctx) : ℚ :=
  min (min c.camScale.x c.camScale.y) c.camScale.z

/-- Getter half of `Ctx.zoom()`: `1 / Math.min(scaleX, scaleY, scaleZ)`. -/
def Ctx.zoomGet (c : Ctx) : ℚ :=
  1 / c.minScale

/-- The callback registered by the first `orbit()` call; it only calls
`orbitControls.update()` and performs no scene mutation. -/
def orbitUpdateFn : UpdateFn := fun _ _ => []

/-- `Ctx.orbit`: on the first call construct the controls and, when not
in IMMEDIATE mode, register the controls-update callback.  (The
config assignments and final `update()` touch only the controls.) -/
def Ctx.orbit (c : Ctx) : Ctx :=
  if c.orbitInit then c
  else
    let c1 := { c with orbitInit := true }
    if c.mode ≠ Mode.IMMEDIATE then Ctx.update c1 orbitUpdateFn else c1

/-- Run a single scene-mutating call on the context. -/
def Ctx.runOp (c : Ctx) : Op → Ctx
  | Op.spawn x => c.spawn x
  | Op.remove x => c.remove x

/-- Run a sequence of scene-mutating calls in order. -/
def Ctx.runOps (c : Ctx) (ops : List Op) : Ctx :=
  ops.foldl Ctx.runOp c

/-- `Ctx.clearGarbage`: remove every garbage node from the scene, then
empty the garbage list. -/
def Ctx.clearGarbage (c : Ctx) : Ctx :=
  { c with scene := c.garbage.foldl sceneRemove c.scene, garbage := [] }

/-- The sequence of scene-mutating calls a tick with arguments
`(dt, elapsed)` executes: each registered callback, in registration
order, invoked once with `(dt, elapsed)`. -/
def Ctx.tickOps (c : Ctx) (dt elapsed : ℚ) : List Op :=
  (c.updateFns.map (fun fn => fn dt elapsed)).flatten

/-- `Ctx.__tick`: clear the garbage, enter IMMEDIATE mode, then run
every registered update callback in order with `(dt, elapsed)`. -/
def Ctx.__tick (c : Ctx) (dt elapsed : ℚ) : Ctx :=
  let c1 := { c.clearGarbage with mode := Mode.IMMEDIATE }
  c1.updateFns.foldl (fun s fn => Ctx.runOps s (fn dt elapsed)) c1

/-- The node handle of the global hemisphere light spawned by the
constructor. -/
def globalLightNode : Node := 0

/-- The context produced by `new Ctx(scene, wrapper)` for a fresh empty
scene: the global light is spawned in RETAINED mode, the background is
painted with the light-theme colour, and the orthographic camera gets
near `-1000000`, far `1000000` and the default unit scale. -/
def Ctx.init : Ctx :=
  Ctx.spawn
    { scene := []
      garbage := []
      mode := Mode.RETAINED
      updateFns := []
      theme := Theme.light
      sceneBackground := Theme.light
      camScale := ⟨1, 1, 1⟩
      camNear := -1000000
      camFar := 1000000
      orbitInit := false }
    globalLightNode

/-- The public operations of the context named by the mode-monotonicity
property (shape factories reduce to `spawn` of the created node). -/
inductive CtxCall
  | spawn (x : Node)
  | remove (x : Node)
  | update (f : UpdateFn)
  | setTheme (t : Theme)
  | zoomSet (v : ℚ)
  | orbit
  | tick (dt elapsed : ℚ)

/-- Run one public context operation. -/
def Ctx.runCall (c : Ctx) : CtxCall → Ctx
  | .spawn x => c.spawn x
  | .remove x => c.remove x
  | .update f => c.update f
  | .setTheme t => c.setTheme t
  | .zoomSet v => c.zoomSet v
  | .orbit => c.orbit
  | .tick dt e => c.__tick dt e

/-- Run a sequence of public context operations in order. -/
def Ctx.runCalls (c : Ctx) (calls : List CtxCall) : Ctx :=
  calls.foldl Ctx.runCall c

/-- Run a sequence of ticks with the given `(dt, elapsed)` argument
pairs. -/
def Ctx.runTicks (c : Ctx) (args : List (ℚ × ℚ)) : Ctx :=
  args.foldl (fun s a => s.__tick a.1 a.2) c

/-- The animation-loop clock of the Renderer (renderer.ts): the last
frame timestamp in milliseconds, if any, and the accumulated elapsed
seconds. -/
structure Clock where
  lastMs : Option ℚ
  elapsedSecs : ℚ

/-- The clock state before the first animation frame. -/
def Clock.init : Clock :=
  { lastMs := none, elapsedSecs := 0 }

/-- One animation-loop callback (renderer.ts): on the first frame the
delta is `0` and `elapsed` does not advance; afterwards the delta is
the timestamp difference in seconds and is accumulated into `elapsed`.
Returns the delivered `dt` together with the new clock state. -/
def Clock.frame (c : Clock) (elapsedMs : ℚ) : ℚ × Clock :=
  match c.lastMs with
  | none => (0, { lastMs := some elapsedMs, elapsedSecs := c.elapsedSecs })
  | some lastMs =>
      let deltaSecs := (elapsedMs - lastMs) / 1000
      (deltaSecs,
        { lastMs := some elapsedMs, elapsedSecs := c.elapsedSecs + deltaSecs })

/-- Modelled from the spec: the visibility-pause path
(`focusBehaviour.stopWhenNotVisible`) is not present in the sources
under src/; the spec states that when ticking is suspended and then
resumed, the previous timestamp is reset to "none" on resume so the
next delta is forced to 0. -/
def Clock.resume (c : Clock) : Clock :=
  { c with lastMs := none }

/-- A JavaScript number, modelled as an exact rational or one of the
non-finite IEEE values.  Negative zero is not distinguished from zero;
none of the values analysed here arise from a signed-zero distinction. -/
inductive JsNum
  | num (q : ℚ)
  | nan
  | inf
  | ninf
  deriving DecidableEq

/-- JavaScript `+` on numbers. -/
def jsAdd : JsNum → JsNum → JsNum
  | .num a, .num b => .num (a + b)
  | .nan, _ => .nan
  | _, .nan => .nan
  | .inf, .ninf => .nan
  | .ninf, .inf => .nan
  | .inf, _ => .inf
  | _, .inf => .inf
  | .ninf, _ => .ninf
  | _, .ninf => .ninf

/-- JavaScript `*` on numbers. -/
def jsMul : JsNum → JsNum → JsNum
  | .num a, .num b => .num (a * b)
  | .nan, _ => .nan
  | _, .nan => .nan
  | .inf, .inf => .inf
  | .inf, .ninf => .ninf
  | .ninf, .inf => .ninf
  | .ninf, .ninf => .inf
  | .inf, .num b => if b = 0 then .nan else if 0 < b then .inf else .ninf
  | .num a, .inf => if a = 0 then .nan else if 0 < a then .inf else .ninf
  | .ninf, .num b => if b = 0 then .nan else if 0 < b then .ninf else .inf
  | .num a, .ninf => if a = 0 then .nan else if 0 < a then .ninf else .inf

/-- JavaScript `/` on numbers; in particular `0 / 0` is `NaN`. -/
def jsDiv : JsNum → JsNum → JsNum
  | .num a, .num b =>
      if b = 0 then (if a = 0 then .nan else if 0 < a then .inf else .ninf)
      else .num (a / b)
  | .nan, _ => .nan
  | _, .nan => .nan
  | .inf, .inf => .nan
  | .inf, .ninf => .nan
  | .ninf, .inf => .nan
  | .ninf, .ninf => .nan
  | .num _, .inf => .num 0
  | .num _, .ninf => .num 0
  | .inf, .num b => if 0 ≤ b then .inf else .ninf
  | .ninf, .num b => if 0 ≤ b then .ninf else .inf

/-- JavaScript `Math.round` on a finite number: round half toward
positive infinity. -/
def jsRound (q : ℚ) : ℤ :=
  ⌊q + 1 / 2⌋

/-- The error message thrown by `Ctx.graph` for an invalid range (the
source quotes the words to and from). -/
def invalidRangeMsg : String :=
  "Invalid range: to must be greater than from"

/-- `Ctx.getCameraExtent`: the camera of this context is always the
orthographic camera installed by the constructor, so the result is the
larger absolute value of the near and far planes. -/
def Ctx.getCameraExtent (c : Ctx) : ℚ :=
  max |c.camNear| |c.camFar|

/-- The sample count computed by `Ctx.graph`:
`Math.round((to - from) * (0.5 / scale))`.  (For a zero camera scale
the JavaScript resolution would be infinite and the sampling loop would
not terminate; every camera scale reachable through `zoom` is nonzero,
and the division is taken in ℚ.) -/
def Ctx.graphPointCount (c : Ctx) (lo hi : ℚ) : ℤ :=
  jsRound ((hi - lo) * (1 / 2 / c.minScale))

/-- `Ctx.graph` (ctx.ts): resolve the range (defaulting to the camera
extent scaled by the camera scale), reject a non-ascending range, then
sample the function at `pointCount + 1` abscissae
`x_i = from + (i / pointCount) * (to - from)` computed in JavaScript
arithmetic.  Returns the sampled `(x, f x)` points handed to
`lineStrip`. -/
def Ctx.graph (c : Ctx) (func : JsNum → JsNum) (range : Option (ℚ × ℚ)) :
    Except String (List (JsNum × JsNum)) :=
  let scale := c.minScale
  let cameraExtent := c.getCameraExtent * scale
  let lo := (range.map Prod.fst).getD (-cameraExtent)
  let hi := (range.map Prod.snd).getD cameraExtent
  if hi ≤ lo then Except.error invalidRangeMsg
  else
    let pointCount := c.graphPointCount lo hi
    Except.ok ((List.range (pointCount + 1).toNat).map (fun (i : ℕ) =>
      let x := jsAdd (JsNum.num lo)
        (jsMul (jsDiv (JsNum.num (i : ℚ)) (JsNum.num (pointCount : ℚ)))
          (JsNum.num (hi - lo)))
      (x, func x)))

/-- The `heights` argument of `Ctx.heightField`: an explicit per-vertex
array, a height function of the grid position, or omitted
(null/undefined). -/
inductive HeightDefinition
  | arr (hs : List JsNum)
  | fn (f : JsNum × JsNum → JsNum)
  | omitted

/-- The message of the error thrown by `Ctx.calculateHeightFieldHeights`
for a wrong-length array. -/
def heightsLengthMsg (actual expected : ℕ) : String :=
  "Height array length (" ++ toString actual ++
    ") does not match height field vertex count (" ++ toString expected ++ ")"

/-- `Ctx.calculateHeightFieldHeights` (ctx.ts): with `s = segments + 1`,
an explicit array must have length `s * s` (else a length-mismatch
error stating expected and actual counts); an omitted definition yields
all-zero heights; a function is sampled on the `s * s` grid positions
`((i % s) / segments * size, (floor (i / s)) / segments * size)`. -/
def Ctx.calculateHeightFieldHeights (heightDefinition : HeightDefinition)
    (segments : ℕ) (size : ℚ) : Except String (List JsNum) :=
  let s := segments + 1
  match heightDefinition with
  | .arr hs =>
      if hs.length ≠ s * s then
        Except.error (heightsLengthMsg hs.length (s * s))
      else
        Except.ok hs
  | .omitted => Except.ok (List.replicate (s * s) (JsNum.num 0))
  | .fn f =>
      Except.ok ((List.range (s * s)).map (fun i =>
        let x := jsMul (jsDiv (JsNum.num ((i % s : ℕ) : ℚ))
          (JsNum.num (segments : ℚ))) (JsNum.num size)
        let y := jsMul (jsDiv (JsNum.num ((i / s : ℕ) : ℚ))
          (JsNum.num (segments : ℚ))) (JsNum.num size)
        f (x, y)))

/-- The message of the error thrown by the two-axis `HeightField`
constructor (heighfield.ts) for a wrong-length array. -/
def hfLengthMismatchMsg (expected actual : ℕ) : String :=
  "Heights array length mismatch. Expected " ++ toString expected ++
    ", got " ++ toString actual ++ "."

/-- The `HeightField` constructor of heighfield.ts, restricted to its
height handling: the heights array must have length
`(widthSegments + 1) * (depthSegments + 1)` (else a length-mismatch
error stating expected and actual counts); on success the plane
geometry has exactly that many vertices and vertex `i` gets height
`heights[i]`, so the resulting vertex heights are returned. -/
def HeightField.make (widthSegments depthSegments : ℕ)
    (heights : List JsNum) : Except String (List JsNum) :=
  let expectedCount := (widthSegments + 1) * (depthSegments + 1)
  if heights.length ≠ expectedCount then
    Except.error (hfLengthMismatchMsg expectedCount heights.length)
  else
    Except.ok ((List.range expectedCount).map
      (fun i => heights.getD i (JsNum.num 0)))

/-! ### Basic lemmas about scene membership -/

theorem mem_sceneAdd_iff {s : List Node} {x y : Node} :
    y ∈ sceneAdd s x ↔ y = x ∨ y ∈ s := by
  by_cases h : y = x <;> simp [sceneAdd, h]

theorem mem_sceneRemove_iff {s : List Node} {x y : Node} :
    y ∈ sceneRemove s x ↔ y ∈ s ∧ y ≠ x := by
  simp [sceneRemove]

theorem mem_foldl_sceneRemove_iff (g : List Node) (s : List Node) (y : Node) :
    y ∈ g.foldl sceneRemove s ↔ y ∈ s ∧ y ∉ g := by
  induction g generalizing s with
  | nil => simp
  | cons a g ih =>
      simp only [List.foldl_cons, ih, mem_sceneRemove_iff, List.mem_cons]
      tauto

/-! ### Field lemmas for the context operations -/

theorem Ctx.spawn_scene (c : Ctx) (x : Node) :
    (c.spawn x).scene = sceneAdd c.scene x := by
  unfold Ctx.spawn
  by_cases h : c.mode = Mode.IMMEDIATE <;> simp [h]

theorem Ctx.spawn_mode (c : Ctx) (x : Node) : (c.spawn x).mode = c.mode := by
  unfold Ctx.spawn
  by_cases h : c.mode = Mode.IMMEDIATE <;> simp [h]

theorem Ctx.spawn_updateFns (c : Ctx) (x : Node) :
    (c.spawn x).updateFns = c.updateFns := by
  unfold Ctx.spawn
  by_cases h : c.mode = Mode.IMMEDIATE <;> simp [h]

theorem Ctx.spawn_garbage (c : Ctx) (x : Node) :
    (c.spawn x).garbage =
      if c.mode = Mode.IMMEDIATE then c.garbage ++ [x] else c.garbage := by
  unfold Ctx.spawn
  by_cases h : c.mode = Mode.IMMEDIATE <;> simp [h]

theorem Ctx.remove_scene (c : Ctx) (x : Node) :
    (c.remove x).scene = sceneRemove c.scene x := rfl

theorem Ctx.remove_mode (c : Ctx) (x : Node) : (c.remove x).mode = c.mode := rfl

theorem Ctx.remove_updateFns (c : Ctx) (x : Node) :
    (c.remove x).updateFns = c.updateFns := rfl

theorem Ctx.remove_garbage (c : Ctx) (x : Node) :
    (c.remove x).garbage = c.garbage := rfl

theorem Ctx.runOp_mode (c : Ctx) (op : Op) : (c.runOp op).mode = c.mode := by
  cases op with
  | spawn x => exact Ctx.spawn_mode c x
  | remove x => rfl

theorem Ctx.runOp_updateFns (c : Ctx) (op : Op) :
    (c.runOp op).updateFns = c.updateFns := by
  cases op with
  | spawn x => exact Ctx.spawn_updateFns c x
  | remove x => rfl

theorem Ctx.runOps_mode (c : Ctx) (ops : List Op) :
    (c.runOps ops).mode = c.mode := by
  induction ops generalizing c with
  | nil => rfl
  | cons op ops ih =>
      simpa [Ctx.runOps] using (ih (c.runOp op)).trans (Ctx.runOp_mode c op)

theorem Ctx.runOps_updateFns (c : Ctx) (ops : List Op) :
    (c.runOps ops).updateFns = c.updateFns := by
  induction ops generalizing c with
  | nil => rfl
  | cons op ops ih =>
      simpa [Ctx.runOps] using (ih (c.runOp op)).trans (Ctx.runOp_updateFns c op)

theorem Ctx.runOps_append (c : Ctx) (l1 l2 : List Op) :
    c.runOps (l1 ++ l2) = (c.runOps l1).runOps l2 := by
  simp [Ctx.runOps, List.foldl_append]

/-! ### Scene membership through op sequences -/

theorem Ctx.mem_scene_runOps_of_not_remove {c : Ctx} {x : Node} {ops : List Op}
    (hx : x ∈ c.scene) (hr : Op.remove x ∉ ops) :
    x ∈ (c.runOps ops).scene := by
  induction ops generalizing c with
  | nil => exact hx
  | cons op ops ih =>
      simp only [List.mem_cons, not_or] at hr
      refine ih ?_ hr.2
      cases op with
      | spawn y => simpa [Ctx.runOp, Ctx.spawn_scene, mem_sceneAdd_iff] using Or.inr hx
      | remove y =>
          have hxy : x ≠ y := fun h => hr.1 (by rw [h])
          simpa [Ctx.runOp, Ctx.remove_scene, mem_sceneRemove_iff] using ⟨hx, hxy⟩

theorem Ctx.mem_scene_runOps_of_spawn {c : Ctx} {x : Node} {ops : List Op}
    (hs : Op.spawn x ∈ ops) (hr : Op.remove x ∉ ops) :
    x ∈ (c.runOps ops).scene := by
  induction ops generalizing c with
  | nil => cases hs
  | cons op ops ih =>
      simp only [List.mem_cons, not_or] at hr
      rcases List.mem_cons.mp hs with h | h
      · subst h
        have hx : x ∈ (c.runOp (Op.spawn x)).scene := by
          simp [Ctx.runOp, Ctx.spawn_scene, mem_sceneAdd_iff]
        exact Ctx.mem_scene_runOps_of_not_remove (c := c.runOp (Op.spawn x)) hx hr.2
      · exact ih h hr.2

theorem Ctx.not_mem_scene_runOps {c : Ctx} {x : Node} {ops : List Op}
    (hx : x ∉ c.scene) (hs : Op.spawn x ∉ ops) :
    x ∉ (c.runOps ops).scene := by
  induction ops generalizing c with
  | nil => exact hx
  | cons op ops ih =>
      simp only [List.mem_cons, not_or] at hs
      refine ih ?_ hs.2
      cases op with
      | spawn y =>
          have hxy : x ≠ y := fun h => hs.1 (by rw [h])
          simp [Ctx.runOp, Ctx.spawn_scene, mem_sceneAdd_iff, hxy, hx]
      | remove y =>
          simp only [Ctx.runOp, Ctx.remove_scene, mem_sceneRemove_iff]
          exact fun h => hx h.1

/-! ### Garbage membership through op sequences -/

theorem Ctx.mem_garbage_runOp_of_mem {c : Ctx} {x : Node} (op : Op)
    (hx : x ∈ c.garbage) : x ∈ (c.runOp op).garbage := by
  cases op with
  | spawn y =>
      have h1 : c.runOp (Op.spawn y) = c.spawn y := rfl
      rw [h1, Ctx.spawn_garbage]
      split <;> simp [hx]
  | remove y => simpa [Ctx.runOp, Ctx.remove_garbage] using hx

theorem Ctx.mem_garbage_runOps_of_mem {c : Ctx} {x : Node} {ops : List Op}
    (hx : x ∈ c.garbage) : x ∈ (c.runOps ops).garbage := by
  induction ops generalizing c with
  | nil => exact hx
  | cons op ops ih => exact ih (Ctx.mem_garbage_runOp_of_mem op hx)

theorem Ctx.mem_garbage_runOps_of_spawn {c : Ctx} {x : Node} {ops : List Op}
    (hm : c.mode = Mode.IMMEDIATE) (hs : Op.spawn x ∈ ops) :
    x ∈ (c.runOps ops).garbage := by
  induction ops generalizing c with
  | nil => cases hs
  | cons op ops ih =>
      rcases List.mem_cons.mp hs with h | h
      · subst h
        refine Ctx.mem_garbage_runOps_of_mem (c := c.runOp (Op.spawn x)) ?_
        have h1 : c.runOp (Op.spawn x) = c.spawn x := rfl
        rw [h1, Ctx.spawn_garbage, if_pos hm]
        simp
      · exact ih (by rw [Ctx.runOp_mode, hm]) h

theorem Ctx.not_mem_garbage_runOps {c : Ctx} {x : Node} {ops : List Op}
    (hx : x ∉ c.garbage) (hs : Op.spawn x ∉ ops) :
    x ∉ (c.runOps ops).garbage := by
  induction ops generalizing c with
  | nil => exact hx
  | cons op ops ih =>
      simp only [List.mem_cons, not_or] at hs
      refine ih ?_ hs.2
      cases op with
      | spawn y =>
          have hxy : x ≠ y := fun h => hs.1 (by rw [h])
          have h1 : c.runOp (Op.spawn y) = c.spawn y := rfl
          rw [h1, Ctx.spawn_garbage]
          split <;> simp [hx, hxy]
      | remove y => simpa [Ctx.runOp, Ctx.remove_garbage] using hx

/-! ### Lemmas about clearGarbage and the tick -/

theorem Ctx.clearGarbage_garbage (c : Ctx) : c.clearGarbage.garbage = [] := rfl

theorem Ctx.clearGarbage_mode (c : Ctx) : c.clearGarbage.mode = c.mode := rfl

theorem Ctx.clearGarbage_updateFns (c : Ctx) :
    c.clearGarbage.updateFns = c.updateFns := rfl

theorem Ctx.mem_clearGarbage_scene_iff (c : Ctx) (y : Node) :
    y ∈ c.clearGarbage.scene ↔ y ∈ c.scene ∧ y ∉ c.garbage :=
  mem_foldl_sceneRemove_iff c.garbage c.scene y

/-- The tick is the run of exactly the calls that the registered
callbacks, taken once each in registration order and applied to
`(dt, elapsed)`, perform on the garbage-cleared IMMEDIATE-mode state. -/
theorem Ctx.tick_eq_runOps (c : Ctx) (dt e : ℚ) :
    c.__tick dt e =
      Ctx.runOps { c.clearGarbage with mode := Mode.IMMEDIATE } (c.tickOps dt e) := by
  have key : ∀ (fns : List UpdateFn) (s : Ctx),
      fns.foldl (fun s fn => Ctx.runOps s (fn dt e)) s =
        Ctx.runOps s ((fns.map (fun fn => fn dt e)).flatten) := by
    intro fns
    induction fns with
    | nil => intro s; rfl
    | cons f fns ih =>
        intro s
        simp only [List.foldl_cons, List.map_cons, List.flatten_cons,
          Ctx.runOps_append]
        exact ih (s.runOps (f dt e))
  exact key c.updateFns _

theorem Ctx.tick_mode (c : Ctx) (dt e : ℚ) :
    (c.__tick dt e).mode = Mode.IMMEDIATE := by
  rw [Ctx.tick_eq_runOps, Ctx.runOps_mode]

theorem Ctx.tick_updateFns (c : Ctx) (dt e : ℚ) :
    (c.__tick dt e).updateFns = c.updateFns := by
  rw [Ctx.tick_eq_runOps, Ctx.runOps_updateFns, Ctx.clearGarbage_updateFns]

theorem Ctx.tick_tickOps (c : Ctx) (dt e dt2 e2 : ℚ) :
    (c.__tick dt e).tickOps dt2 e2 = c.tickOps dt2 e2 := by
  simp [Ctx.tickOps, Ctx.tick_updateFns]

theorem Ctx.tick_garbage_spawn {c : Ctx} {x : Node} {dt e : ℚ}
    (hs : Op.spawn x ∈ c.tickOps dt e) : x ∈ (c.__tick dt e).garbage := by
  rw [Ctx.tick_eq_runOps]
  exact Ctx.mem_garbage_runOps_of_spawn rfl hs

theorem Ctx.mem_scene_tick_of_spawn {c : Ctx} {x : Node} {dt e : ℚ}
    (hs : Op.spawn x ∈ c.tickOps dt e) (hr : Op.remove x ∉ c.tickOps dt e) :
    x ∈ (c.__tick dt e).scene := by
  rw [Ctx.tick_eq_runOps]
  exact Ctx.mem_scene_runOps_of_spawn hs hr

theorem Ctx.not_mem_scene_tick_of_garbage {c : Ctx} {x : Node} {dt e : ℚ}
    (hg : x ∈ c.garbage) (hs : Op.spawn x ∉ c.tickOps dt e) :
    x ∉ (c.__tick dt e).scene := by
  rw [Ctx.tick_eq_runOps]
  refine Ctx.not_mem_scene_runOps ?_ hs
  show x ∉ c.clearGarbage.scene
  rw [Ctx.mem_clearGarbage_scene_iff]
  exact fun h => h.2 hg

theorem Ctx.not_mem_scene_tick {c : Ctx} {x : Node} {dt e : ℚ}
    (hx : x ∉ c.scene) (hs : Op.spawn x ∉ c.tickOps dt e) :
    x ∉ (c.__tick dt e).scene := by
  rw [Ctx.tick_eq_runOps]
  refine Ctx.not_mem_scene_runOps ?_ hs
  show x ∉ c.clearGarbage.scene
  rw [Ctx.mem_clearGarbage_scene_iff]
  exact fun h => hx h.1

theorem Ctx.retained_tick_invariant {c : Ctx} {x : Node} (dt e : ℚ)
    (hx : x ∈ c.scene) (hg : x ∉ c.garbage)
    (hs : Op.spawn x ∉ c.tickOps dt e) (hr : Op.remove x ∉ c.tickOps dt e) :
    x ∈ (c.__tick dt e).scene ∧ x ∉ (c.__tick dt e).garbage := by
  rw [Ctx.tick_eq_runOps]
  constructor
  · refine Ctx.mem_scene_runOps_of_not_remove ?_ hr
    show x ∈ c.clearGarbage.scene
    rw [Ctx.mem_clearGarbage_scene_iff]
    exact ⟨hx, hg⟩
  · refine Ctx.not_mem_garbage_runOps ?_ hs
    show x ∉ c.clearGarbage.garbage
    rw [Ctx.clearGarbage_garbage]
    exact List.not_mem_nil x

/-! ### Remove-only op sequences (for garbage idempotence) -/

theorem Ctx.runOps_scene_noSpawn {ops : List Op}
    (h : ∀ op ∈ ops, op.isSpawn = false) (c : Ctx) :
    (c.runOps ops).scene =
      c.scene.filter (fun y => !(decide (Op.remove y ∈ ops))) := by
  induction ops generalizing c with
  | nil => simp [Ctx.runOps]
  | cons op ops ih =>
      cases op with
      | spawn y => exact absurd (h _ (List.mem_cons_self _ _)) (by simp [Op.isSpawn])
      | remove a =>
          have h' : ∀ op ∈ ops, op.isSpawn = false :=
            fun op hop => h op (List.mem_cons_of_mem _ hop)
          have step : c.runOps (Op.remove a :: ops) = (c.remove a).runOps ops := rfl
          rw [step, ih h', Ctx.remove_scene, sceneRemove, List.filter_filter]
          apply List.filter_congr
          intro y _
          by_cases hya : y = a
          · simp [hya]
          · simp [hya, Op.remove.injEq]

theorem Ctx.runOps_garbage_noSpawn {ops : List Op}
    (h : ∀ op ∈ ops, op.isSpawn = false) (c : Ctx) :
    (c.runOps ops).garbage = c.garbage := by
  induction ops generalizing c with
  | nil => rfl
  | cons op ops ih =>
      cases op with
      | spawn y => exact absurd (h _ (List.mem_cons_self _ _)) (by simp [Op.isSpawn])
      | remove a =>
          have h' : ∀ op ∈ ops, op.isSpawn = false :=
            fun op hop => h op (List.mem_cons_of_mem _ hop)
          have step : c.runOps (Op.remove a :: ops) = (c.remove a).runOps ops := rfl
          rw [step, ih h', Ctx.remove_garbage]

/-! ### updateFns along tick sequences -/

theorem Ctx.runTicks_updateFns (c : Ctx) (args : List (ℚ × ℚ)) :
    (c.runTicks args).updateFns = c.updateFns := by
  induction args generalizing c with
  | nil => rfl
  | cons a args ih =>
      have step : c.runTicks (a :: args) = (c.__tick a.1 a.2).runTicks args := rfl
      rw [step, ih, Ctx.tick_updateFns]

theorem Ctx.runTicks_tickOps (c : Ctx) (args : List (ℚ × ℚ)) (dt e : ℚ) :
    (c.runTicks args).tickOps dt e = c.tickOps dt e := by
  simp [Ctx.tickOps, Ctx.runTicks_updateFns]

/-! ### Claim theorems: scene lifecycle -/

/-- C1: Immediate-mode one-frame rule: if `spawn x` is executed by an
update callback during tick N, `x` is not spawned during tick N+1, and
`x` is never passed to `remove`, then `x` is in the scene after tick N
completes, and is not in the scene after tick N+1 completes nor after
any later tick. -/
theorem immediate_mode_one_frame_rule (c : Ctx) (x : Node)
    (a1 a2 : ℚ × ℚ) (rest : List (ℚ × ℚ))
    (h1 : Op.spawn x ∈ c.tickOps a1.1 a1.2)
    (hr1 : Op.remove x ∉ c.tickOps a1.1 a1.2)
    (h2 : Op.spawn x ∉ c.tickOps a2.1 a2.2)
    (hr2 : Op.remove x ∉ c.tickOps a2.1 a2.2)
    (hrest : ∀ a ∈ rest,
      Op.spawn x ∉ c.tickOps a.1 a.2 ∧ Op.remove x ∉ c.tickOps a.1 a.2) :
    x ∈ (c.__tick a1.1 a1.2).scene ∧
    x ∉ ((c.__tick a1.1 a1.2).__tick a2.1 a2.2).scene ∧
    x ∉ (((c.__tick a1.1 a1.2).__tick a2.1 a2.2).runTicks rest).scene := by
  have part1 : x ∈ (c.__tick a1.1 a1.2).scene :=
    Ctx.mem_scene_tick_of_spawn h1 hr1
  have hgarb : x ∈ (c.__tick a1.1 a1.2).garbage :=
    Ctx.tick_garbage_spawn h1
  have h2' : Op.spawn x ∉ (c.__tick a1.1 a1.2).tickOps a2.1 a2.2 := by
    rw [Ctx.tick_tickOps]; exact h2
  have part2 : x ∉ ((c.__tick a1.1 a1.2).__tick a2.1 a2.2).scene :=
    Ctx.not_mem_scene_tick_of_garbage hgarb h2'
  refine ⟨part1, part2, ?_⟩
  have gen : ∀ (args : List (ℚ × ℚ)) (s : Ctx), s.updateFns = c.updateFns →
      x ∉ s.scene → (∀ a ∈ args, Op.spawn x ∉ c.tickOps a.1 a.2) →
      x ∉ (s.runTicks args).scene := by
    intro args
    induction args with
    | nil => intro s _ hx _; exact hx
    | cons a args ih =>
        intro s hu hx hargs
        have step : s.runTicks (a :: args) = (s.__tick a.1 a.2).runTicks args := rfl
        rw [step]
        refine ih _ ?_ ?_ ?_
        · rw [Ctx.tick_updateFns, hu]
        · refine Ctx.not_mem_scene_tick hx ?_
          have heq : s.tickOps a.1 a.2 = c.tickOps a.1 a.2 := by
            simp [Ctx.tickOps, hu]
          rw [heq]
          exact hargs a (List.mem_cons_self _ _)
        · exact fun b hb => hargs b (List.mem_cons_of_mem _ hb)
  refine gen rest _ ?_ part2 (fun a ha => (hrest a ha).1)
  rw [Ctx.tick_updateFns, Ctx.tick_updateFns]

/-- Concrete callback for the C1 witness: spawns node 5 only when the
elapsed time is 0. -/
def fnC1 : UpdateFn := fun _ e => if e = 0 then [Op.spawn 5] else []

/-- Concrete context for the C1 witness. -/
def ctxC1 : Ctx := Ctx.update Ctx.init fnC1

/-- Witness for C1 at a concrete context and node. -/
theorem immediate_mode_one_frame_rule_witness :
    5 ∈ (Ctx.__tick ctxC1 0 0).scene ∧
    5 ∉ ((Ctx.__tick ctxC1 0 0).__tick 0 1).scene ∧
    5 ∉ (((Ctx.__tick ctxC1 0 0).__tick 0 1).runTicks [(0, 2)]).scene :=
  immediate_mode_one_frame_rule ctxC1 5 (0, 0) (0, 1) [(0, 2)]
    (by decide) (by decide) (by decide) (by decide) (by decide)

/-- C2: Retained persistence: a node spawned while the context is in
RETAINED mode is not appended to `garbage` (the garbage list is left
unchanged), and it stays in the scene across arbitrarily many
subsequent ticks whose callbacks neither spawn it again nor remove
it. -/
theorem retained_persistence (c : Ctx) (x : Node) (args : List (ℚ × ℚ))
    (hmode : c.mode = Mode.RETAINED) (hg : x ∉ c.garbage)
    (hargs : ∀ a ∈ args,
      Op.spawn x ∉ c.tickOps a.1 a.2 ∧ Op.remove x ∉ c.tickOps a.1 a.2) :
    (c.spawn x).garbage = c.garbage ∧
    x ∈ ((c.spawn x).runTicks args).scene := by
  have hgarb : (c.spawn x).garbage = c.garbage := by
    rw [Ctx.spawn_garbage, if_neg (by simp [hmode])]
  refine ⟨hgarb, ?_⟩
  have gen : ∀ (args : List (ℚ × ℚ)) (s : Ctx), s.updateFns = c.updateFns →
      x ∈ s.scene → x ∉ s.garbage →
      (∀ a ∈ args,
        Op.spawn x ∉ c.tickOps a.1 a.2 ∧ Op.remove x ∉ c.tickOps a.1 a.2) →
      x ∈ (s.runTicks args).scene := by
    intro args
    induction args with
    | nil => intro s _ hx _ _; exact hx
    | cons a args ih =>
        intro s hu hx hgs hargs
        have step : s.runTicks (a :: args) = (s.__tick a.1 a.2).runTicks args := rfl
        rw [step]
        have heq : s.tickOps a.1 a.2 = c.tickOps a.1 a.2 := by
          simp [Ctx.tickOps, hu]
        have inv := Ctx.retained_tick_invariant a.1 a.2 hx hgs
          (by rw [heq]; exact (hargs a (List.mem_cons_self _ _)).1)
          (by rw [heq]; exact (hargs a (List.mem_cons_self _ _)).2)
        refine ih _ ?_ inv.1 inv.2 ?_
        · rw [Ctx.tick_updateFns, hu]
        · exact fun b hb => hargs b (List.mem_cons_of_mem _ hb)
  refine gen args _ (Ctx.spawn_updateFns c x) ?_ (hgarb ▸ hg) hargs
  rw [Ctx.spawn_scene]
  exact mem_sceneAdd_iff.mpr (Or.inl rfl)

/-- Witness for C2 at a concrete context and node. -/
theorem retained_persistence_witness :
    (Ctx.spawn Ctx.init 7).garbage = Ctx.init.garbage ∧
    7 ∈ ((Ctx.spawn Ctx.init 7).runTicks [(0, 0), (1, 1)]).scene :=
  retained_persistence Ctx.init 7 [(0, 0), (1, 1)]
    (by decide) (by decide) (by decide)

/-- Auxiliary fact: when the garbage list is empty, clearing it leaves
the scene untouched. -/
theorem Ctx.clearGarbage_scene_of_nil {c : Ctx} (h : c.garbage = []) :
    c.clearGarbage.scene = c.scene := by
  simp [Ctx.clearGarbage, h]

/-- C4: Garbage idempotence: two successive ticks whose executed
callback traces contain no spawn calls (and are the same trace, as for
deterministic callbacks registered once) leave the garbage list empty
after the first tick, and the second tick leaves the scene exactly as
the first tick left it. -/
theorem garbage_idempotence (c : Ctx) (dt1 e1 dt2 e2 : ℚ)
    (h1 : ∀ op ∈ c.tickOps dt1 e1, op.isSpawn = false)
    (hsame : c.tickOps dt2 e2 = c.tickOps dt1 e1) :
    (c.__tick dt1 e1).garbage = [] ∧
    ((c.__tick dt1 e1).__tick dt2 e2).scene = (c.__tick dt1 e1).scene := by
  set L := c.tickOps dt1 e1 with hL
  set p : Node → Bool := fun y => !(decide (Op.remove y ∈ L)) with hp
  have hgarb : (c.__tick dt1 e1).garbage = [] := by
    rw [Ctx.tick_eq_runOps, Ctx.runOps_garbage_noSpawn h1]
    rfl
  have hscene1 : (c.__tick dt1 e1).scene = c.clearGarbage.scene.filter p := by
    rw [Ctx.tick_eq_runOps, Ctx.runOps_scene_noSpawn h1]
  have hops2 : (c.__tick dt1 e1).tickOps dt2 e2 = L := by
    rw [Ctx.tick_tickOps]; exact hsame
  refine ⟨hgarb, ?_⟩
  rw [Ctx.tick_eq_runOps, hops2, Ctx.runOps_scene_noSpawn h1]
  have hcg : ({ (c.__tick dt1 e1).clearGarbage with
      mode := Mode.IMMEDIATE } : Ctx).scene = (c.__tick dt1 e1).scene :=
    Ctx.clearGarbage_scene_of_nil hgarb
  rw [hcg, hscene1, List.filter_filter]
  exact List.filter_congr (fun y _ => by simp)

/-- Concrete callback for the C4 witness: removes the global light
every tick and spawns nothing. -/
def fnC4 : UpdateFn := fun _ _ => [Op.remove globalLightNode]

/-- Concrete context for the C4 witness. -/
def ctxC4 : Ctx := Ctx.update Ctx.init fnC4

/-- Witness for C4 at a concrete context. -/
theorem garbage_idempotence_witness :
    (Ctx.__tick ctxC4 0 0).garbage = [] ∧
    ((Ctx.__tick ctxC4 0 0).__tick 1 1).scene = (Ctx.__tick ctxC4 0 0).scene :=
  garbage_idempotence ctxC4 0 0 1 1 (by decide) (by decide)

/-! ### Claim theorems: mode and scheduler -/

theorem Ctx.update_mode (c : Ctx) (f : UpdateFn) : (c.update f).mode = c.mode := rfl

theorem Ctx.setTheme_mode (c : Ctx) (t : Theme) : (c.setTheme t).mode = c.mode := rfl

theorem Ctx.zoomSet_mode (c : Ctx) (v : ℚ) : (c.zoomSet v).mode = c.mode := rfl

theorem Ctx.orbit_mode (c : Ctx) : c.orbit.mode = c.mode := by
  unfold Ctx.orbit
  split
  · rfl
  · split <;> rfl

theorem Ctx.runCall_mode (c : Ctx) (call : CtxCall) :
    (c.runCall call).mode = c.mode ∨ (c.runCall call).mode = Mode.IMMEDIATE := by
  cases call with
  | spawn x => exact Or.inl (Ctx.spawn_mode c x)
  | remove x => exact Or.inl rfl
  | update f => exact Or.inl rfl
  | setTheme t => exact Or.inl rfl
  | zoomSet v => exact Or.inl rfl
  | orbit => exact Or.inl (Ctx.orbit_mode c)
  | tick dt e => exact Or.inr (Ctx.tick_mode c dt e)

theorem Ctx.runCalls_mode (c : Ctx) (calls : List CtxCall) :
    (c.runCalls calls).mode = c.mode ∨ (c.runCalls calls).mode = Mode.IMMEDIATE := by
  induction calls generalizing c with
  | nil => exact Or.inl rfl
  | cons call calls ih =>
      have step : c.runCalls (call :: calls) = (c.runCall call).runCalls calls := rfl
      rw [step]
      rcases ih (c.runCall call) with h | h
      · rcases Ctx.runCall_mode c call with h2 | h2
        · exact Or.inl (h.trans h2)
        · exact Or.inr (h.trans h2)
      · exact Or.inr h

/-- C5: Mode monotonicity: the context mode is RETAINED at
construction, every tick sets it to IMMEDIATE, none of the public
operations (spawn — which every shape factory reduces to — remove,
update, setTheme, zoom, orbit) changes it, and any sequence of public
operations either preserves the mode or ends in IMMEDIATE, so once
IMMEDIATE it stays IMMEDIATE for the remaining lifetime. -/
theorem mode_monotonicity :
    Ctx.init.mode = Mode.RETAINED ∧
    (∀ (c : Ctx) (dt e : ℚ), (c.__tick dt e).mode = Mode.IMMEDIATE) ∧
    (∀ (c : Ctx) (x : Node), (c.spawn x).mode = c.mode) ∧
    (∀ (c : Ctx) (x : Node), (c.remove x).mode = c.mode) ∧
    (∀ (c : Ctx) (f : UpdateFn), (c.update f).mode = c.mode) ∧
    (∀ (c : Ctx) (t : Theme), (c.setTheme t).mode = c.mode) ∧
    (∀ (c : Ctx) (v : ℚ), (c.zoomSet v).mode = c.mode) ∧
    (∀ c : Ctx, c.orbit.mode = c.mode) ∧
    (∀ (c : Ctx) (calls : List CtxCall),
      (c.runCalls calls).mode = c.mode ∨ (c.runCalls calls).mode = Mode.IMMEDIATE) :=
  ⟨by rw [Ctx.init, Ctx.spawn_mode], Ctx.tick_mode, Ctx.spawn_mode,
    Ctx.remove_mode, Ctx.update_mode, Ctx.setTheme_mode, Ctx.zoomSet_mode,
    Ctx.orbit_mode, Ctx.runCalls_mode⟩

theorem Ctx.runCall_updateFns (c : Ctx) (call : CtxCall) :
    ∃ tail, (c.runCall call).updateFns = c.updateFns ++ tail := by
  cases call with
  | spawn x => exact ⟨[], by rw [List.append_nil]; exact Ctx.spawn_updateFns c x⟩
  | remove x => exact ⟨[], by rw [List.append_nil]; rfl⟩
  | update f => exact ⟨[f], rfl⟩
  | setTheme t => exact ⟨[], by rw [List.append_nil]; rfl⟩
  | zoomSet v => exact ⟨[], by rw [List.append_nil]; rfl⟩
  | orbit =>
      show ∃ tail, c.orbit.updateFns = c.updateFns ++ tail
      unfold Ctx.orbit
      split
      · exact ⟨[], by rw [List.append_nil]⟩
      · split
        · exact ⟨[orbitUpdateFn], rfl⟩
        · exact ⟨[], by rw [List.append_nil]⟩
  | tick dt e => exact ⟨[], by rw [List.append_nil]; exact Ctx.tick_updateFns c dt e⟩

/-- C9: Update scheduling order: `update` appends the callback to the
end of `updateFns`; every public operation only ever extends
`updateFns` at the end (nothing removes or reorders entries); and a
tick is exactly the execution, on the garbage-cleared IMMEDIATE-mode
state, of the calls made by each registered callback taken once, in
registration order, each invoked with this tick's `(dt, elapsed)`
pair — in particular the tick leaves the registration list unchanged. -/
theorem update_scheduling_order :
    (∀ (c : Ctx) (f : UpdateFn), (c.update f).updateFns = c.updateFns ++ [f]) ∧
    (∀ (c : Ctx) (call : CtxCall),
      ∃ tail, (c.runCall call).updateFns = c.updateFns ++ tail) ∧
    (∀ (c : Ctx) (dt e : ℚ),
      c.__tick dt e =
        Ctx.runOps { c.clearGarbage with mode := Mode.IMMEDIATE }
          ((c.updateFns.map (fun fn => fn dt e)).flatten)) ∧
    (∀ (c : Ctx) (dt e : ℚ), (c.__tick dt e).updateFns = c.updateFns) :=
  ⟨fun _ _ => rfl, Ctx.runCall_updateFns, Ctx.tick_eq_runOps, Ctx.tick_updateFns⟩

/-! ### Claim theorems: clock, zoom, graph, height field -/

/-- C3: Clock reset on pause: after a suspension of any duration and a
resume (which resets the previous timestamp to none), the next
animation frame delivers `dt = 0` regardless of the new timestamp, and
the elapsed time does not jump. -/
theorem clock_reset_on_pause (c : Clock) (t : ℚ) :
    (Clock.frame (Clock.resume c) t).1 = 0 ∧
    ((Clock.frame (Clock.resume c) t).2).elapsedSecs = c.elapsedSecs :=
  ⟨rfl, rfl⟩

/-- C8: Zoom round-trip: setting the zoom to a positive value `v`
scales all three camera axes by `1 / v`, and the getter returns
`1 / min(scaleX, scaleY, scaleZ) = v`. -/
theorem zoom_round_trip (c : Ctx) (v : ℚ) (hv : 0 < v) :
    Ctx.zoomGet (Ctx.zoomSet c v) = v := by
  have hmin : Ctx.minScale (Ctx.zoomSet c v) = 1 / v := by
    simp [Ctx.minScale, Ctx.zoomSet]
  rw [Ctx.zoomGet, hmin, one_div_one_div]

/-- Witness for C8 at a concrete context and value. -/
theorem zoom_round_trip_witness :
    (0 : ℚ) < 2 ∧ Ctx.zoomGet (Ctx.zoomSet Ctx.init 2) = 2 :=
  ⟨by norm_num, zoom_round_trip Ctx.init 2 (by norm_num)⟩

/-- C6: Graph invalid-range error: a graph call with an explicit range
`[lo, hi]` fails with the invalid-range error exactly when `lo ≥ hi`
(the bounds are never swapped — every non-ascending range errors), and
for `lo < hi` it proceeds to sample the function and returns the
sampled points. -/
theorem graph_invalid_range_iff (c : Ctx) (f : JsNum → JsNum) (lo hi : ℚ) :
    (∃ msg, Ctx.graph c f (some (lo, hi)) = Except.error msg) ↔ lo ≥ hi := by
  unfold Ctx.graph
  by_cases h : hi ≤ lo
  · simp [h, ge_iff_le]
  · simp [h, ge_iff_le]

/-- C10: Degenerate sampling for small valid ranges: the explicit range
`[0, 1/2]` on the freshly constructed context (camera scale 1)
satisfies the precondition `lo < hi`, yet the computed point count
`Math.round(1/2 * 0.5)` is 0, so the single sample abscissa
`0 + (0/0) * (1/2)` is NaN: the graph succeeds without any error and
returns a point with a NaN x-coordinate. -/
theorem graph_degenerate_small_range (f : JsNum → JsNum) :
    (0 : ℚ) < 1 / 2 ∧
    Ctx.graphPointCount Ctx.init 0 (1 / 2) = 0 ∧
    Ctx.graph Ctx.init f (some (0, 1 / 2)) =
      Except.ok [(JsNum.nan, f JsNum.nan)] := by
  have hscale : Ctx.minScale Ctx.init = 1 := by decide
  have hpc : Ctx.graphPointCount Ctx.init 0 (1 / 2) = 0 := by
    unfold Ctx.graphPointCount jsRound
    rw [hscale, show ((1 : ℚ) / 2 - 0) * (1 / 2 / 1) + 1 / 2 = 3 / 4 by norm_num,
      Int.floor_eq_zero_iff]
    rw [Set.mem_Ico]
    constructor <;> norm_num
  have hx : jsAdd (JsNum.num 0)
      (jsMul (jsDiv (JsNum.num ((0 : ℕ) : ℚ)) (JsNum.num ((0 : ℤ) : ℚ)))
        (JsNum.num (1 / 2 - 0))) = JsNum.nan := by
    norm_num [jsDiv, jsMul, jsAdd]
  refine ⟨by norm_num, hpc, ?_⟩
  simp only [Ctx.graph, Option.map_some', Option.getD_some]
  rw [if_neg (by norm_num : ¬((1 : ℚ) / 2 ≤ 0))]
  rw [hpc]
  simp only [show ((0 : ℤ) + 1).toNat = 1 from rfl,
    show List.range 1 = [0] from rfl, List.map_cons, List.map_nil, hx]

/-- C7: Height-field length-mismatch error: an explicit heights array
is rejected with a length-mismatch error stating the expected and
actual counts exactly when its length differs from the vertex count —
`(segments+1)^2` for `Ctx.calculateHeightFieldHeights` and
`(widthSegments+1)*(depthSegments+1)` for the two-axis HeightField
constructor; when the lengths match, the given heights are accepted
and become the vertex heights. -/
theorem heightfield_length_mismatch :
    (∀ (hs : List JsNum) (segments : ℕ) (size : ℚ),
      Ctx.calculateHeightFieldHeights (HeightDefinition.arr hs) segments size =
        if hs.length = (segments + 1) * (segments + 1) then Except.ok hs
        else Except.error
          (heightsLengthMsg hs.length ((segments + 1) * (segments + 1)))) ∧
    (∀ (ws ds : ℕ) (hs : List JsNum),
      HeightField.make ws ds hs =
        if hs.length = (ws + 1) * (ds + 1) then Except.ok hs
        else Except.error (hfLengthMismatchMsg ((ws + 1) * (ds + 1)) hs.length)) := by
  constructor
  · intro hs segments size
    by_cases h : hs.length = (segments + 1) * (segments + 1) <;>
      simp [Ctx.calculateHeightFieldHeights, h]
  · intro ws ds hs
    by_cases h : hs.length = (ws + 1) * (ds + 1)
    · rw [if_pos h]
      unfold HeightField.make
      rw [if_neg (by rw [h]; exact fun hne => hne rfl)]
      rw [← h]
      congr 1
      have key : ∀ (l : List JsNum),
          (List.range l.length).map (fun i => l.getD i (JsNum.num 0)) = l := by
        intro l
        induction l with
        | nil => rfl
        | cons a l ih =>
            simp only [List.length_cons, List.range_succ_eq_map, List.map_cons,
              List.map_map, Function.comp_def, List.getD_cons_zero,
              List.getD_cons_succ]
            rw [ih]
      exact key hs
    · rw [if_neg h]
      unfold HeightField.make
      rw [if_pos h]
